import Mathlib

/-!
Verification development for the mindful-dot breathing timer
(src/mindful-dot/app/page.tsx).

The page is a single React component.  Its engine state lives in React
state hooks (running, phaseIndex, phaseRemaining, cycles, sessionSeconds,
sessionStartRef, dotPos).  We embed that state as the structure
EngineState below, and the state-changing code paths as functions:

  - tickRaw    : the body of the 1-second interval callback
                 (page.tsx lines 202-248);
  - skipStep   : one firing of the zero-duration auto-skip effect
                 (page.tsx lines 251-257);
  - stabilize  : the auto-skip effect re-fires (its dependencies include
                 phaseIndex, which it changes) until its guard is false.
                 When at least one phase duration is nonzero the cascade
                 reaches a guard-false state in at most 3 firings, so a
                 fuel of 4 computes the exact fixpoint; when the phase
                 durations are all zero while running, the cascade never
                 reaches a fixpoint, which we record as the value none;
  - startRaw / pauseOp : the two branches of the toggle callback
                 (page.tsx lines 179-187);
  - resetAll   : the reset callback (page.tsx lines 168-176);
  - moveDotRandom : the random dot repositioning (page.tsx lines 157-165),
                 with the two Math.random() samples passed as arguments;
  - progressPct : the derived progress percentage (page.tsx lines 137-140),
                 with JavaScript number arithmetic embedded as exact
                 rational arithmetic and Math.round as jsRound;
  - applyDotEdit : the dotMin / dotMax slider writes
                 (page.tsx lines 356-377).

moveCount instruments the number of moveDotRandom invocations (one per
cycleCompleted event); it is not a source variable and no source code path
reads or resets it.  Timestamps (Date.now()) are abstracted as naturals
passed to startRaw.  Chime playback has no effect on engine state and is
not modelled.
-/

/-- The user-adjustable configuration record, mirroring SettingsState in
page.tsx.  Durations are the slider values (whole seconds), dot sizes are
pixel counts modelled as integers, volume is an exact rational. -/
structure SettingsState where
  inhale : ℕ
  hold1 : ℕ
  exhale : ℕ
  hold2 : ℕ
  dotMin : ℤ
  dotMax : ℤ
  cyclesGoal : ℕ
  chimeOnPhaseChange : Bool
  chimeOnCycle : Bool
  volume : ℚ
deriving DecidableEq

/-- The DEFAULTS constant of page.tsx. -/
def DEFAULTS : SettingsState :=
  { inhale := 4
    hold1 := 2
    exhale := 6
    hold2 := 2
    dotMin := 40
    dotMax := 160
    cyclesGoal := 20
    chimeOnPhaseChange := false
    chimeOnCycle := true
    volume := 2 / 5 }

/-- The phaseDurations array of page.tsx: index 0 = inhale, 1 = hold1,
2 = exhale, 3 = hold2 (phase order Inhale, Hold1, Exhale, Hold2). -/
def phaseDurations (s : SettingsState) : Fin 4 → ℕ
  | ⟨0, _⟩ => s.inhale
  | ⟨1, _⟩ => s.hold1
  | ⟨2, _⟩ => s.exhale
  | ⟨3, _⟩ => s.hold2

@[simp] lemma phaseDurations_zero (s : SettingsState) : phaseDurations s 0 = s.inhale := rfl

@[simp] lemma phaseDurations_one (s : SettingsState) : phaseDurations s 1 = s.hold1 := rfl

@[simp] lemma phaseDurations_two (s : SettingsState) : phaseDurations s 2 = s.exhale := rfl

@[simp] lemma phaseDurations_three (s : SettingsState) : phaseDurations s 3 = s.hold2 := rfl

/-- The engine state of the component: the React state hooks that the
breathing logic reads and writes.  phaseRemaining is an integer (a
JavaScript number holding whole seconds), so that non-negativity is a
provable property rather than a typing artifact. -/
structure EngineState where
  running : Bool
  phaseIndex : Fin 4
  phaseRemaining : ℤ
  cycles : ℕ
  sessionSeconds : ℕ
  sessionStart : Option ℕ
  dotPos : ℝ × ℝ
  moveCount : ℕ

/-- MAX_R_PCT constant of moveDotRandom. -/
noncomputable def MAX_R_PCT : ℝ := 41

/-- PADDING_PCT constant of moveDotRandom. -/
noncomputable def PADDING_PCT : ℝ := 6

/-- moveDotRandom of page.tsx, with the two Math.random() samples
u1 u2 (each in the interval from 0 inclusive to 1 exclusive) made
explicit.  Returns the new dot position. -/
noncomputable def moveDotRandom (u1 u2 : ℝ) : ℝ × ℝ :=
  let r : ℝ := u1 * (MAX_R_PCT - PADDING_PCT)
  let theta : ℝ := u2 * Real.pi * 2
  (50 + r * Real.cos theta, 50 + r * Real.sin theta)

/-- Distance of a dot position from the center (50, 50). -/
noncomputable def distFromCenter (p : ℝ × ℝ) : ℝ :=
  Real.sqrt ((p.1 - 50) ^ 2 + (p.2 - 50) ^ 2)

/-- The initial component state: running = false, phase Inhale,
remaining = configured inhale duration, all counters zero, dot centered.
This is also exactly the state produced by resetAll (with moveCount 0). -/
noncomputable def initState (cfg : SettingsState) : EngineState :=
  { running := false
    phaseIndex := 0
    phaseRemaining := (cfg.inhale : ℤ)
    cycles := 0
    sessionSeconds := 0
    sessionStart := none
    dotPos := ((50 : ℝ), (50 : ℝ))
    moveCount := 0 }

/-- resetAll of page.tsx: stop, return to Inhale with the configured
inhale duration, zero the counters, clear the session start, recenter
the dot. -/
noncomputable def resetAll (cfg : SettingsState) (s : EngineState) : EngineState :=
  { s with
    running := false
    phaseIndex := 0
    phaseRemaining := (cfg.inhale : ℤ)
    cycles := 0
    sessionSeconds := 0
    sessionStart := none
    dotPos := ((50 : ℝ), (50 : ℝ)) }

/-- The starting half of the toggle callback: set running, and record the
session start instant only if it is not already recorded. -/
def startRaw (now : ℕ) (s : EngineState) : EngineState :=
  { s with
    running := true
    sessionStart := some (s.sessionStart.getD now) }

/-- The pausing half of the toggle callback: clear running, touch nothing
else. -/
def pauseOp (s : EngineState) : EngineState :=
  { s with running := false }

/-- One firing of the zero-duration auto-skip effect body
(page.tsx lines 253-256): set phaseRemaining to 1 and advance the phase
index cyclically. -/
def skipStep (s : EngineState) : EngineState :=
  { s with
    phaseRemaining := 1
    phaseIndex := s.phaseIndex + 1 }

/-- The guard of the auto-skip effect: running, and the current phase has
configured duration 0. -/
def skipGuard (cfg : SettingsState) (s : EngineState) : Prop :=
  s.running = true ∧ phaseDurations cfg s.phaseIndex = 0

instance (cfg : SettingsState) (s : EngineState) : Decidable (skipGuard cfg s) := by
  unfold skipGuard
  infer_instance

/-- Iterate the auto-skip effect while its guard holds, for at most the
given number of firings. -/
def skipN (cfg : SettingsState) : ℕ → EngineState → EngineState
  | 0, s => s
  | n + 1, s => if skipGuard cfg s then skipN cfg n (skipStep s) else s

/-- All four configured phase durations are zero. -/
def allZero (cfg : SettingsState) : Prop :=
  cfg.inhale = 0 ∧ cfg.hold1 = 0 ∧ cfg.exhale = 0 ∧ cfg.hold2 = 0

instance (cfg : SettingsState) : Decidable (allZero cfg) := by
  unfold allZero
  infer_instance

/-- Run the auto-skip effect to its fixpoint.  The effect advances the
phase index by one each firing, so with at least one nonzero duration the
guard fails after at most 3 firings and a fuel of 4 computes the exact
fixpoint.  With all four durations zero and running, the guard never
fails: the effect re-fires forever, and we record the absence of a
fixpoint as none. -/
def stabilize (cfg : SettingsState) (s : EngineState) : Option EngineState :=
  if s.running = true ∧ allZero cfg then none else some (skipN cfg 4 s)

/-- start: the toggle callback pressed while paused, followed by the
auto-skip effect re-firing (running is among its dependencies). -/
def startOp (cfg : SettingsState) (now : ℕ) (s : EngineState) : Option EngineState :=
  stabilize cfg (startRaw now s)

/-- The body of the 1-second interval callback (page.tsx lines 205-237).
The interval exists only while running.  It increments sessionSeconds,
then either decrements phaseRemaining (when above 1) or advances the
phase: on completing Exhale (index 2) it increments cycles and calls
moveDotRandom with two fresh random samples u, and it installs the next
phase remaining as its duration, or 1 when that duration is 0 (the
JavaScript expression phaseDurations[nextIdx] || 1). -/
noncomputable def tickRaw (cfg : SettingsState) (u : ℝ × ℝ) (s : EngineState) : EngineState :=
  if s.running = true then
    let s1 := { s with sessionSeconds := s.sessionSeconds + 1 }
    if 1 < s1.phaseRemaining then
      { s1 with phaseRemaining := s1.phaseRemaining - 1 }
    else
      let nextIdx := s1.phaseIndex + 1
      let s2 :=
        if s1.phaseIndex = 2 then
          { s1 with
            cycles := s1.cycles + 1
            dotPos := moveDotRandom u.1 u.2
            moveCount := s1.moveCount + 1 }
        else s1
      { s2 with
        phaseIndex := nextIdx
        phaseRemaining :=
          if phaseDurations cfg nextIdx = 0 then 1
          else (phaseDurations cfg nextIdx : ℤ) }
  else s

/-- One observable tick: the interval callback followed by the auto-skip
effect re-firing to its fixpoint (phaseIndex is among its dependencies). -/
noncomputable def tickOp (cfg : SettingsState) (u : ℝ × ℝ) (s : EngineState) :
    Option EngineState :=
  stabilize cfg (tickRaw cfg u s)

/-- Drop the first element of a stream of random sample pairs. -/
def rsShift (rs : ℕ → ℝ × ℝ) : ℕ → ℝ × ℝ := fun n => rs (n + 1)

/-- Drop the first m elements of a stream of random sample pairs. -/
def rsDrop (m : ℕ) (rs : ℕ → ℝ × ℝ) : ℕ → ℝ × ℝ := fun n => rs (n + m)

/-- n observable ticks, consuming random sample pairs from the stream rs. -/
noncomputable def tickN (cfg : SettingsState) (rs : ℕ → ℝ × ℝ) :
    ℕ → EngineState → Option EngineState
  | 0, s => some s
  | n + 1, s => (tickOp cfg (rs 0) s).bind (tickN cfg (rsShift rs) n)

/-- n interval callbacks without the auto-skip effect (the pure part of
the tick); used to compute runs of configurations where the auto-skip
effect never fires. -/
noncomputable def tickNP (cfg : SettingsState) (rs : ℕ → ℝ × ℝ) :
    ℕ → EngineState → EngineState
  | 0, s => s
  | n + 1, s => tickNP cfg (rsShift rs) n (tickRaw cfg (rs 0) s)

/-- The control-plane and tick transitions available on the engine, with a
fixed configuration: the toggle in its two directions, reset, and the
1-second tick. -/
inductive Step (cfg : SettingsState) : EngineState → EngineState → Prop
  | start (now : ℕ) (s s' : EngineState) : startOp cfg now s = some s' → Step cfg s s'
  | pause (s : EngineState) : Step cfg s (pauseOp s)
  | reset (s : EngineState) : Step cfg s (resetAll cfg s)
  | tick (u : ℝ × ℝ) (s s' : EngineState) : tickOp cfg u s = some s' → Step cfg s s'

/-- Engine states reachable from the initial state under any sequence of
start / pause / reset / tick operations. -/
inductive Reachable (cfg : SettingsState) : EngineState → Prop
  | init : Reachable cfg (initState cfg)
  | step {s s' : EngineState} : Reachable cfg s → Step cfg s s' → Reachable cfg s'

/-- Math.round on an exact rational: round half toward positive infinity. -/
def jsRound (q : ℚ) : ℤ := ⌊q + 1 / 2⌋

/-- The progressPct derived value of page.tsx lines 137-140:
min(100, round((cycles / max(1, cyclesGoal)) * 100)). -/
def progressPct (cycles : ℕ) (cyclesGoal : ℕ) : ℤ :=
  min 100 (jsRound ((cycles : ℚ) / ((max 1 cyclesGoal : ℕ) : ℚ) * 100))

/-- The formula named by the specification:
min(100, round(100 * cyclesCompleted / max(1, cyclesGoal))). -/
def progressSpec (cycles : ℕ) (cyclesGoal : ℕ) : ℤ :=
  min 100 (jsRound ((100 * cycles : ℚ) / ((max 1 cyclesGoal : ℕ) : ℚ)))

/-- A write through the dot-size slider surface. -/
inductive DotEdit
  | setMin : ℤ → DotEdit
  | setMax : ℤ → DotEdit

/-- The dotMin / dotMax slider onValueChange handlers
(page.tsx lines 356-377): writing dotMin clamps it to at most
dotMax - 10, writing dotMax clamps it to at least dotMin + 10. -/
def applyDotEdit (s : SettingsState) : DotEdit → SettingsState
  | DotEdit.setMin v => { s with dotMin := min v (s.dotMax - 10) }
  | DotEdit.setMax v => { s with dotMax := max v (s.dotMin + 10) }

/-- The invariant of claim C2: the remaining count of the current phase
lies between 0 and the configured duration of that phase. -/
def EngineInv (cfg : SettingsState) (s : EngineState) : Prop :=
  0 ≤ s.phaseRemaining ∧ s.phaseRemaining ≤ (phaseDurations cfg s.phaseIndex : ℤ)

/-- The configuration of the zero-duration-skip scenario of claim C3:
inhale 3, hold1 0, exhale 3, hold2 0 (other fields as in DEFAULTS). -/
def cfg3030 : SettingsState :=
  { inhale := 3
    hold1 := 0
    exhale := 3
    hold2 := 0
    dotMin := 40
    dotMax := 160
    cyclesGoal := 20
    chimeOnPhaseChange := false
    chimeOnCycle := true
    volume := 2 / 5 }

/-- The degenerate configuration of claim C4: all four phase durations
zero (other fields as in DEFAULTS). -/
def cfg0000 : SettingsState :=
  { inhale := 0
    hold1 := 0
    exhale := 0
    hold2 := 0
    dotMin := 40
    dotMax := 160
    cyclesGoal := 20
    chimeOnPhaseChange := false
    chimeOnCycle := true
    volume := 2 / 5 }

/-! ## Basic lemmas about the auto-skip cascade -/

@[simp] lemma skipStep_running (s : EngineState) : (skipStep s).running = s.running := rfl

@[simp] lemma skipStep_cycles (s : EngineState) : (skipStep s).cycles = s.cycles := rfl

@[simp] lemma skipStep_moveCount (s : EngineState) : (skipStep s).moveCount = s.moveCount := rfl

@[simp] lemma skipStep_phaseRemaining (s : EngineState) : (skipStep s).phaseRemaining = 1 := rfl

@[simp] lemma skipStep_phaseIndex (s : EngineState) :
    (skipStep s).phaseIndex = s.phaseIndex + 1 := rfl

lemma skipN_succ (cfg : SettingsState) (n : ℕ) (s : EngineState) :
    skipN cfg (n + 1) s = if skipGuard cfg s then skipN cfg n (skipStep s) else s := rfl

lemma skipN_not_guard (cfg : SettingsState) {s : EngineState} (h : ¬ skipGuard cfg s) :
    ∀ n, skipN cfg n s = s := by
  intro n
  cases n with
  | zero => rfl
  | succ n => simp [skipN_succ, h]

lemma skipN_running (cfg : SettingsState) (n : ℕ) (s : EngineState) :
    (skipN cfg n s).running = s.running := by
  induction n generalizing s with
  | zero => rfl
  | succ n ih =>
    rw [skipN_succ]
    by_cases h : skipGuard cfg s
    · simp only [if_pos h, ih, skipStep_running]
    · simp only [if_neg h]

lemma skipN_cycles (cfg : SettingsState) (n : ℕ) (s : EngineState) :
    (skipN cfg n s).cycles = s.cycles := by
  induction n generalizing s with
  | zero => rfl
  | succ n ih =>
    rw [skipN_succ]
    by_cases h : skipGuard cfg s
    · simp only [if_pos h, ih, skipStep_cycles]
    · simp only [if_neg h]

lemma skipN_rem_one (cfg : SettingsState) (n : ℕ) {s : EngineState}
    (h : s.phaseRemaining = 1) : (skipN cfg n s).phaseRemaining = 1 := by
  induction n generalizing s with
  | zero => exact h
  | succ n ih =>
    rw [skipN_succ]
    by_cases hg : skipGuard cfg s
    · simp only [if_pos hg]
      exact ih (skipStep_phaseRemaining s)
    · simpa only [if_neg hg]

lemma skipN_rem_ge_one (cfg : SettingsState) (n : ℕ) {s : EngineState}
    (h : 1 ≤ s.phaseRemaining) : 1 ≤ (skipN cfg n s).phaseRemaining := by
  induction n generalizing s with
  | zero => exact h
  | succ n ih =>
    rw [skipN_succ]
    by_cases hg : skipGuard cfg s
    · simp only [if_pos hg]
      exact ih (by simp)
    · simpa only [if_neg hg]

lemma skipN_four (cfg : SettingsState) (s : EngineState) :
    skipN cfg 4 s =
      if skipGuard cfg s then
        if skipGuard cfg (skipStep s) then
          if skipGuard cfg (skipStep (skipStep s)) then
            if skipGuard cfg (skipStep (skipStep (skipStep s))) then
              skipStep (skipStep (skipStep (skipStep s)))
            else skipStep (skipStep (skipStep s))
          else skipStep (skipStep s)
        else skipStep s
      else s := by
  rfl

lemma allZero_iff (cfg : SettingsState) : allZero cfg ↔ ∀ i : Fin 4, phaseDurations cfg i = 0 := by
  constructor
  · rintro ⟨h0, h1, h2, h3⟩ i
    fin_cases i <;> assumption
  · intro h
    exact ⟨h 0, h 1, h 2, h 3⟩

lemma skipN4_noGuard (cfg : SettingsState) (s : EngineState)
    (h : ¬ (s.running = true ∧ allZero cfg)) : ¬ skipGuard cfg (skipN cfg 4 s) := by
  by_cases hr : s.running = true
  · have hz : ¬ allZero cfg := fun hza => h ⟨hr, hza⟩
    obtain ⟨run, idx, rem, cyc, ses, st, dp, mc⟩ := s
    simp only [EngineState.running] at hr
    subst hr
    rw [skipN_four]
    fin_cases idx <;>
      by_cases h1 : cfg.inhale = 0 <;>
      by_cases h2 : cfg.hold1 = 0 <;>
      by_cases h3 : cfg.exhale = 0 <;>
      by_cases h4 : cfg.hold2 = 0 <;>
      simp_all [skipGuard, skipStep, allZero, phaseDurations]
  · intro hg
    rw [skipGuard, skipN_running] at hg
    exact hr hg.1

lemma stabilize_eq_some (cfg : SettingsState) {s : EngineState}
    (h : ¬ (s.running = true ∧ allZero cfg)) :
    stabilize cfg s = some (skipN cfg 4 s) := by
  rw [stabilize, if_neg h]

lemma stabilize_not_guard (cfg : SettingsState) {s : EngineState}
    (hg : ¬ skipGuard cfg s) (h : ¬ (s.running = true ∧ allZero cfg)) :
    stabilize cfg s = some s := by
  rw [stabilize_eq_some cfg h, skipN_not_guard cfg hg]

/-! ## Unfolding lemmas for the interval callback -/

lemma tickRaw_not_running (cfg : SettingsState) (u : ℝ × ℝ) {s : EngineState}
    (h : ¬ s.running = true) : tickRaw cfg u s = s := by
  simp [tickRaw, h]

lemma tickRaw_dec (cfg : SettingsState) (u : ℝ × ℝ) {s : EngineState}
    (h : s.running = true) (h2 : 1 < s.phaseRemaining) :
    tickRaw cfg u s =
      { s with
        sessionSeconds := s.sessionSeconds + 1
        phaseRemaining := s.phaseRemaining - 1 } := by
  simp [tickRaw, h, h2]

lemma tickRaw_adv (cfg : SettingsState) (u : ℝ × ℝ) {s : EngineState}
    (h : s.running = true) (h2 : ¬ 1 < s.phaseRemaining) (h3 : ¬ s.phaseIndex = 2) :
    tickRaw cfg u s =
      { s with
        sessionSeconds := s.sessionSeconds + 1
        phaseIndex := s.phaseIndex + 1
        phaseRemaining :=
          if phaseDurations cfg (s.phaseIndex + 1) = 0 then 1
          else (phaseDurations cfg (s.phaseIndex + 1) : ℤ) } := by
  simp [tickRaw, h, h2, h3]

lemma tickRaw_adv_exhale (cfg : SettingsState) (u : ℝ × ℝ) {s : EngineState}
    (h : s.running = true) (h2 : ¬ 1 < s.phaseRemaining) (h3 : s.phaseIndex = 2) :
    tickRaw cfg u s =
      { s with
        sessionSeconds := s.sessionSeconds + 1
        cycles := s.cycles + 1
        dotPos := moveDotRandom u.1 u.2
        moveCount := s.moveCount + 1
        phaseIndex := s.phaseIndex + 1
        phaseRemaining :=
          if phaseDurations cfg (s.phaseIndex + 1) = 0 then 1
          else (phaseDurations cfg (s.phaseIndex + 1) : ℤ) } := by
  simp [tickRaw, h, h2, h3]

/-! ## The phase-remaining range invariant (claim C2) -/

lemma stabilize_inv (cfg : SettingsState) {s s' : EngineState}
    (hst : stabilize cfg s = some s')
    (hE : EngineInv cfg s ∨ (s.phaseRemaining = 1 ∧ skipGuard cfg s)) :
    EngineInv cfg s' := by
  have hcond : ¬ (s.running = true ∧ allZero cfg) := by
    intro hc
    rw [stabilize, if_pos hc] at hst
    exact Option.noConfusion hst
  rw [stabilize_eq_some cfg hcond] at hst
  have hs' : s' = skipN cfg 4 s := (Option.some.inj hst).symm
  subst hs'
  by_cases hg : skipGuard cfg s
  · have hrem : (skipN cfg 4 s).phaseRemaining = 1 := by
      show (skipN cfg (3 + 1) s).phaseRemaining = 1
      rw [skipN_succ, if_pos hg]
      exact skipN_rem_one cfg 3 (skipStep_phaseRemaining s)
    have hng := skipN4_noGuard cfg s hcond
    have hrun : (skipN cfg 4 s).running = true := by
      rw [skipN_running]
      exact hg.1
    have hd : phaseDurations cfg (skipN cfg 4 s).phaseIndex ≠ 0 := by
      intro h0
      exact hng ⟨hrun, h0⟩
    have hd1 : 1 ≤ phaseDurations cfg (skipN cfg 4 s).phaseIndex :=
      Nat.one_le_iff_ne_zero.mpr hd
    refine ⟨by rw [hrem]; norm_num, ?_⟩
    rw [hrem]
    exact_mod_cast hd1
  · rw [skipN_not_guard cfg hg]
    rcases hE with hI | hBad
    · exact hI
    · exact absurd hBad.2 hg

lemma tickRaw_inv (cfg : SettingsState) (u : ℝ × ℝ) {s : EngineState}
    (hI : EngineInv cfg s) :
    EngineInv cfg (tickRaw cfg u s) ∨
      ((tickRaw cfg u s).phaseRemaining = 1 ∧ skipGuard cfg (tickRaw cfg u s)) := by
  obtain ⟨hI0, hI1⟩ := hI
  by_cases hr : s.running = true
  · by_cases h2 : 1 < s.phaseRemaining
    · left
      rw [tickRaw_dec cfg u hr h2]
      exact ⟨by dsimp; omega, by dsimp; omega⟩
    · by_cases hd : phaseDurations cfg (s.phaseIndex + 1) = 0
      · right
        by_cases h3 : s.phaseIndex = 2
        · rw [tickRaw_adv_exhale cfg u hr h2 h3]
          exact ⟨by simp [hd], by simp [skipGuard, hr, hd]⟩
        · rw [tickRaw_adv cfg u hr h2 h3]
          exact ⟨by simp [hd], by simp [skipGuard, hr, hd]⟩
      · left
        by_cases h3 : s.phaseIndex = 2
        · rw [tickRaw_adv_exhale cfg u hr h2 h3]
          exact ⟨by simp [hd], by simp [hd]⟩
        · rw [tickRaw_adv cfg u hr h2 h3]
          exact ⟨by simp [hd], by simp [hd]⟩
  · left
    rw [tickRaw_not_running cfg u hr]
    exact ⟨hI0, hI1⟩

lemma reachable_inv (cfg : SettingsState) {s : EngineState} (h : Reachable cfg s) :
    EngineInv cfg s := by
  induction h with
  | init =>
    exact ⟨Int.ofNat_nonneg _, by simp [initState]⟩
  | step hr hstep ih =>
    cases hstep with
    | start now s s' heq =>
      refine stabilize_inv cfg heq (Or.inl ?_)
      exact ih
    | pause s =>
      exact ih
    | reset s =>
      exact ⟨Int.ofNat_nonneg _, by simp [resetAll]⟩
    | tick u s s' heq =>
      exact stabilize_inv cfg heq (tickRaw_inv cfg u ih)

/-! ## Pure tick runs for configurations with no zero-duration phase -/

lemma tickNP_succ (cfg : SettingsState) (rs : ℕ → ℝ × ℝ) (n : ℕ) (s : EngineState) :
    tickNP cfg rs (n + 1) s = tickNP cfg (rsShift rs) n (tickRaw cfg (rs 0) s) := rfl

lemma tickN_succ (cfg : SettingsState) (rs : ℕ → ℝ × ℝ) (n : ℕ) (s : EngineState) :
    tickN cfg rs (n + 1) s = (tickOp cfg (rs 0) s).bind (tickN cfg (rsShift rs) n) := rfl

lemma rsDrop_zero (rs : ℕ → ℝ × ℝ) : rsDrop 0 rs = rs := by
  funext n
  simp [rsDrop]

lemma rsDrop_shift (m : ℕ) (rs : ℕ → ℝ × ℝ) : rsDrop m (rsShift rs) = rsDrop (m + 1) rs := by
  funext n
  simp [rsDrop, rsShift, Nat.add_assoc]

lemma tickNP_add (cfg : SettingsState) (m n : ℕ) :
    ∀ (rs : ℕ → ℝ × ℝ) (s : EngineState),
      tickNP cfg rs (m + n) s = tickNP cfg (rsDrop m rs) n (tickNP cfg rs m s) := by
  induction m with
  | zero =>
    intro rs s
    simp [tickNP, rsDrop_zero]
  | succ m ih =>
    intro rs s
    have h : m + 1 + n = (m + n) + 1 := by omega
    rw [h, tickNP_succ, ih, rsDrop_shift, ← tickNP_succ]

/-- Running one whole phase: from a running state whose remaining count is
r + 1, exactly r + 1 interval callbacks advance the phase index by one,
bump cycles and moveCount exactly when the phase being completed is Exhale
(index 2), and install the next phase remaining as duration-or-1. -/
lemma tickNP_run_phase (cfg : SettingsState) (r : ℕ) :
    ∀ (rs : ℕ → ℝ × ℝ) (s : EngineState), s.running = true →
      s.phaseRemaining = ((r + 1 : ℕ) : ℤ) →
      (tickNP cfg rs (r + 1) s).running = true ∧
      (tickNP cfg rs (r + 1) s).phaseIndex = s.phaseIndex + 1 ∧
      (tickNP cfg rs (r + 1) s).phaseRemaining =
        (if phaseDurations cfg (s.phaseIndex + 1) = 0 then 1
         else (phaseDurations cfg (s.phaseIndex + 1) : ℤ)) ∧
      (tickNP cfg rs (r + 1) s).cycles =
        s.cycles + (if s.phaseIndex = 2 then 1 else 0) ∧
      (tickNP cfg rs (r + 1) s).moveCount =
        s.moveCount + (if s.phaseIndex = 2 then 1 else 0) := by
  induction r with
  | zero =>
    intro rs s hrun hrem
    have h2 : ¬ 1 < s.phaseRemaining := by
      rw [hrem]
      norm_num
    rw [tickNP_succ,
      show tickNP cfg (rsShift rs) 0 (tickRaw cfg (rs 0) s) = tickRaw cfg (rs 0) s from rfl]
    by_cases h3 : s.phaseIndex = 2
    · rw [tickRaw_adv_exhale cfg (rs 0) hrun h2 h3]
      exact ⟨hrun, rfl, rfl, by simp [h3], by simp [h3]⟩
    · rw [tickRaw_adv cfg (rs 0) hrun h2 h3]
      exact ⟨hrun, rfl, rfl, by simp [h3], by simp [h3]⟩
  | succ r ih =>
    intro rs s hrun hrem
    have h2 : 1 < s.phaseRemaining := by
      rw [hrem]
      push_cast
      omega
    rw [tickNP_succ, tickRaw_dec cfg (rs 0) hrun h2]
    refine ih (rsShift rs) _ hrun ?_
    show s.phaseRemaining - 1 = ((r + 1 : ℕ) : ℤ)
    rw [hrem]
    push_cast
    omega

lemma tickN_eq_tickNP (cfg : SettingsState)
    (hne : ∀ i : Fin 4, phaseDurations cfg i ≠ 0) (n : ℕ) :
    ∀ (rs : ℕ → ℝ × ℝ) (s : EngineState),
      tickN cfg rs n s = some (tickNP cfg rs n s) := by
  have hnz : ¬ allZero cfg := fun hz => hne 0 (by rw [phaseDurations_zero]; exact hz.1)
  induction n with
  | zero =>
    intro rs s
    rfl
  | succ n ih =>
    intro rs s
    have hng : ¬ skipGuard cfg (tickRaw cfg (rs 0) s) :=
      fun hg => hne _ hg.2
    have hcond : ¬ ((tickRaw cfg (rs 0) s).running = true ∧ allZero cfg) :=
      fun hc => hnz hc.2
    rw [tickN_succ, tickOp, stabilize_not_guard cfg hng hcond, Option.some_bind, ih,
      tickNP_succ]

/-! ## Claim C1 -/

/-- Claim C1: for every configuration whose four phase durations are all
strictly positive, after exactly inhale + hold1 + exhale + hold2 ticks
performed from a fresh reset followed by start, the cyclesCompleted
counter equals 1 and exactly one cycleCompleted event, hence exactly one
moveDotRandom call, has occurred. -/
theorem c1_one_cycle_after_full_sum (cfg : SettingsState) (rs : ℕ → ℝ × ℝ) (now : ℕ)
    (hpos : ∀ i : Fin 4, 0 < phaseDurations cfg i) :
    ((startOp cfg now (resetAll cfg (initState cfg))).bind
        (tickN cfg rs (cfg.inhale + cfg.hold1 + cfg.exhale + cfg.hold2))).map
      (fun s => (s.cycles, s.moveCount)) = some (1, 1) := by
  have hne : ∀ i : Fin 4, phaseDurations cfg i ≠ 0 := fun i => (hpos i).ne'
  have hnz : ¬ allZero cfg := fun hz => hne 0 (by rw [phaseDurations_zero]; exact hz.1)
  have ha0 : cfg.inhale ≠ 0 := by have := hne 0; rwa [phaseDurations_zero] at this
  have hb0 : cfg.hold1 ≠ 0 := by have := hne 1; rwa [phaseDurations_one] at this
  have hc0 : cfg.exhale ≠ 0 := by have := hne 2; rwa [phaseDurations_two] at this
  have hd0 : cfg.hold2 ≠ 0 := by have := hne 3; rwa [phaseDurations_three] at this
  obtain ⟨a, ha⟩ : ∃ a, cfg.inhale = a + 1 := ⟨cfg.inhale - 1, by omega⟩
  obtain ⟨b, hb⟩ : ∃ b, cfg.hold1 = b + 1 := ⟨cfg.hold1 - 1, by omega⟩
  obtain ⟨c, hc⟩ : ∃ c, cfg.exhale = c + 1 := ⟨cfg.exhale - 1, by omega⟩
  obtain ⟨d, hd⟩ : ∃ d, cfg.hold2 = d + 1 := ⟨cfg.hold2 - 1, by omega⟩
  have hng : ¬ skipGuard cfg (startRaw now (resetAll cfg (initState cfg))) :=
    fun hg => hne _ hg.2
  have hcond : ¬ ((startRaw now (resetAll cfg (initState cfg))).running = true ∧ allZero cfg) :=
    fun hcnd => hnz hcnd.2
  have hstart : startOp cfg now (resetAll cfg (initState cfg)) =
      some (startRaw now (resetAll cfg (initState cfg))) :=
    stabilize_not_guard cfg hng hcond
  have hsum : cfg.inhale + cfg.hold1 + cfg.exhale + cfg.hold2 =
      (a + 1) + ((b + 1) + ((c + 1) + (d + 1))) := by omega
  rw [hstart, Option.some_bind, hsum, tickN_eq_tickNP cfg hne, tickNP_add, tickNP_add,
    tickNP_add]
  -- phase 1 : Inhale, a + 1 ticks
  have h1run : (startRaw now (resetAll cfg (initState cfg))).running = true := rfl
  have h1rem : (startRaw now (resetAll cfg (initState cfg))).phaseRemaining =
      ((a + 1 : ℕ) : ℤ) := by
    show ((cfg.inhale : ℕ) : ℤ) = ((a + 1 : ℕ) : ℤ)
    rw [ha]
  obtain ⟨p1run, p1idx, p1rem, p1cyc, p1mc⟩ :=
    tickNP_run_phase cfg a rs (startRaw now (resetAll cfg (initState cfg))) h1run h1rem
  rw [show (startRaw now (resetAll cfg (initState cfg))).phaseIndex = 0 from rfl] at p1idx
  rw [show (startRaw now (resetAll cfg (initState cfg))).phaseIndex = 0 from rfl,
    show ((0 : Fin 4) + 1) = 1 from rfl, phaseDurations_one, if_neg hb0] at p1rem
  rw [show (startRaw now (resetAll cfg (initState cfg))).phaseIndex = 0 from rfl,
    show (startRaw now (resetAll cfg (initState cfg))).cycles = 0 from rfl,
    if_neg (by decide : ¬ (0 : Fin 4) = 2)] at p1cyc
  rw [show (startRaw now (resetAll cfg (initState cfg))).phaseIndex = 0 from rfl,
    show (startRaw now (resetAll cfg (initState cfg))).moveCount = 0 from rfl,
    if_neg (by decide : ¬ (0 : Fin 4) = 2)] at p1mc
  rw [show ((0 : Fin 4) + 1) = 1 from rfl] at p1idx
  rw [hb] at p1rem
  -- phase 2 : Hold1, b + 1 ticks
  obtain ⟨p2run, p2idx, p2rem, p2cyc, p2mc⟩ :=
    tickNP_run_phase cfg b (rsDrop (a + 1) rs)
      (tickNP cfg rs (a + 1) (startRaw now (resetAll cfg (initState cfg)))) p1run
      (by exact_mod_cast p1rem)
  rw [p1idx, show ((1 : Fin 4) + 1) = 2 from rfl] at p2idx
  rw [p1idx, show ((1 : Fin 4) + 1) = 2 from rfl, phaseDurations_two, if_neg hc0] at p2rem
  rw [p1idx, p1cyc, if_neg (by decide : ¬ (1 : Fin 4) = 2)] at p2cyc
  rw [p1idx, p1mc, if_neg (by decide : ¬ (1 : Fin 4) = 2)] at p2mc
  rw [hc] at p2rem
  -- phase 3 : Exhale, c + 1 ticks
  obtain ⟨p3run, p3idx, p3rem, p3cyc, p3mc⟩ :=
    tickNP_run_phase cfg c (rsDrop (b + 1) (rsDrop (a + 1) rs))
      (tickNP cfg (rsDrop (a + 1) rs) (b + 1)
        (tickNP cfg rs (a + 1) (startRaw now (resetAll cfg (initState cfg)))))
      p2run (by exact_mod_cast p2rem)
  rw [p2idx, show ((2 : Fin 4) + 1) = 3 from rfl] at p3idx
  rw [p2idx, show ((2 : Fin 4) + 1) = 3 from rfl, phaseDurations_three, if_neg hd0] at p3rem
  rw [p2idx, p2cyc, if_pos (rfl : (2 : Fin 4) = 2)] at p3cyc
  rw [p2idx, p2mc, if_pos (rfl : (2 : Fin 4) = 2)] at p3mc
  rw [hd] at p3rem
  -- phase 4 : Hold2, d + 1 ticks
  obtain ⟨p4run, p4idx, p4rem, p4cyc, p4mc⟩ :=
    tickNP_run_phase cfg d (rsDrop (c + 1) (rsDrop (b + 1) (rsDrop (a + 1) rs)))
      (tickNP cfg (rsDrop (b + 1) (rsDrop (a + 1) rs)) (c + 1)
        (tickNP cfg (rsDrop (a + 1) rs) (b + 1)
          (tickNP cfg rs (a + 1) (startRaw now (resetAll cfg (initState cfg))))))
      p3run (by exact_mod_cast p3rem)
  rw [p3idx, if_neg (by decide : ¬ (3 : Fin 4) = 2), p3cyc] at p4cyc
  rw [p3idx, if_neg (by decide : ¬ (3 : Fin 4) = 2), p3mc] at p4mc
  simp [p4cyc, p4mc]

/-- Witness for claim C1: the default configuration has all four durations
positive, and the theorem applies to it. -/
theorem c1_witness :
    ((startOp DEFAULTS 0 (resetAll DEFAULTS (initState DEFAULTS))).bind
        (tickN DEFAULTS (fun _ => ((0 : ℝ), (0 : ℝ)))
          (DEFAULTS.inhale + DEFAULTS.hold1 + DEFAULTS.exhale + DEFAULTS.hold2))).map
      (fun s => (s.cycles, s.moveCount)) = some (1, 1) :=
  c1_one_cycle_after_full_sum DEFAULTS (fun _ => ((0 : ℝ), (0 : ℝ))) 0 (by decide)

/-! ## Claim C2 -/

/-- Claim C2: in every engine state reachable under any sequence of start,
pause, reset and tick operations with a fixed configuration,
phaseRemaining is never negative and never exceeds the configured duration
of the current phase. -/
theorem c2_phase_remaining_in_range (cfg : SettingsState) (s : EngineState)
    (h : Reachable cfg s) :
    0 ≤ s.phaseRemaining ∧ s.phaseRemaining ≤ (phaseDurations cfg s.phaseIndex : ℤ) :=
  reachable_inv cfg h

/-- Witness for claim C2, at the initial state of the default
configuration. -/
theorem c2_witness :
    0 ≤ (initState DEFAULTS).phaseRemaining ∧
      (initState DEFAULTS).phaseRemaining ≤
        (phaseDurations DEFAULTS (initState DEFAULTS).phaseIndex : ℤ) :=
  c2_phase_remaining_in_range DEFAULTS (initState DEFAULTS) Reachable.init

/-! ## Claim C3 -/

/-- Claim C3 fails on the code: with durations (3, 0, 3, 0), after 6 ticks
from start the engine is back at Inhale but cyclesCompleted is 2, not 1.
The auto-skip effect overwrites the freshly installed remaining count of
the phase after a skipped phase with 1, truncating each Exhale and Inhale
to a single second, so a full cycle takes 3 ticks instead of 6. -/
theorem c3_zero_skip_truncates_cycles :
    ((startOp cfg3030 0 (initState cfg3030)).bind
        (tickN cfg3030 (fun _ => ((0 : ℝ), (0 : ℝ))) 6)).map
      (fun s => (s.cycles, s.phaseIndex)) = some (2, 0) := by
  decide

/-! ## Claim C4 -/

/-- Claim C4 fails on the code: with all four durations zero, pressing
start makes the auto-skip effect re-fire forever.  Its guard still holds
after every number of firings, so no stable state exists (startOp is
none); the phase index keeps cycling instead of holding at Inhale.  Along
the skip cascade cyclesCompleted does stay 0. -/
theorem c4_all_zero_skip_never_stabilizes :
    startOp cfg0000 0 (initState cfg0000) = none ∧
    ∀ n : ℕ,
      skipGuard cfg0000 (skipN cfg0000 n (startRaw 0 (initState cfg0000))) ∧
      (skipN cfg0000 n (startRaw 0 (initState cfg0000))).cycles = 0 := by
  refine ⟨rfl, fun n => ⟨⟨?_, ?_⟩, ?_⟩⟩
  · rw [skipN_running]
    rfl
  · exact (by decide : ∀ i : Fin 4, phaseDurations cfg0000 i = 0) _
  · rw [skipN_cycles]
    rfl

/-! ## Claim C5 -/

/-- Counterexample to claim C5: with both random samples equal to 0 (a
value Math.random can return), moveDotRandom yields the center (50, 50),
whose distance from the center is 0, outside the claimed interval from
PADDING_PCT to MAX_R_PCT.  The code multiplies the first sample by
MAX_R_PCT - PADDING_PCT and never adds PADDING_PCT to the radius. -/
theorem c5_counterexample :
    (0 : ℝ) ∈ Set.Ico (0 : ℝ) 1 ∧
      distFromCenter (moveDotRandom 0 0) ∉ Set.Ico PADDING_PCT MAX_R_PCT := by
  constructor
  · exact ⟨le_refl 0, by norm_num⟩
  · have hpos : moveDotRandom 0 0 = ((50 : ℝ), (50 : ℝ)) := by
      simp [moveDotRandom]
    rw [hpos]
    have hz : distFromCenter ((50 : ℝ), (50 : ℝ)) = 0 := by
      simp [distFromCenter]
    rw [hz]
    simp [Set.mem_Ico, PADDING_PCT]

/-- Claim C5 as amended: for every invocation of moveDotRandom, i.e. for
every value of the first random sample in the interval from 0 inclusive to
1 exclusive and every second sample, the distance of the resulting dot
position from the center (50, 50) lies in the interval from 0 inclusive to
MAX_R_PCT - PADDING_PCT (= 35) exclusive; the padding shrinks the maximal
radius rather than enforcing a minimal distance. -/
theorem c5_distance_in_disk (u1 u2 : ℝ) (h0 : 0 ≤ u1) (h1 : u1 < 1) :
    0 ≤ distFromCenter (moveDotRandom u1 u2) ∧
      distFromCenter (moveDotRandom u1 u2) < MAX_R_PCT - PADDING_PCT := by
  have h35 : (0 : ℝ) ≤ MAX_R_PCT - PADDING_PCT := by
    norm_num [MAX_R_PCT, PADDING_PCT]
  have hd : distFromCenter (moveDotRandom u1 u2) = u1 * (MAX_R_PCT - PADDING_PCT) := by
    unfold distFromCenter moveDotRandom
    dsimp only
    have hsc := Real.sin_sq_add_cos_sq (u2 * Real.pi * 2)
    have harg :
        (50 + u1 * (MAX_R_PCT - PADDING_PCT) * Real.cos (u2 * Real.pi * 2) - 50) ^ 2 +
          (50 + u1 * (MAX_R_PCT - PADDING_PCT) * Real.sin (u2 * Real.pi * 2) - 50) ^ 2 =
          (u1 * (MAX_R_PCT - PADDING_PCT)) ^ 2 := by
      linear_combination (u1 * (MAX_R_PCT - PADDING_PCT)) ^ 2 * hsc
    rw [harg, Real.sqrt_sq (mul_nonneg h0 h35)]
  refine ⟨?_, ?_⟩
  · rw [hd]
    exact mul_nonneg h0 h35
  · rw [hd]
    have hK : (0 : ℝ) < MAX_R_PCT - PADDING_PCT := by
      norm_num [MAX_R_PCT, PADDING_PCT]
    calc u1 * (MAX_R_PCT - PADDING_PCT) < 1 * (MAX_R_PCT - PADDING_PCT) :=
        mul_lt_mul_of_pos_right h1 hK
      _ = MAX_R_PCT - PADDING_PCT := one_mul _

/-- Witness for the amended claim C5, at the sample pair (1/2, 0). -/
theorem c5_witness :
    0 ≤ distFromCenter (moveDotRandom (1 / 2) 0) ∧
      distFromCenter (moveDotRandom (1 / 2) 0) < MAX_R_PCT - PADDING_PCT :=
  c5_distance_in_disk (1 / 2) 0 one_half_pos.le one_half_lt_one

/-! ## Claim C6 -/

/-- Claim C6: resetAll, applied in any state and any configuration, sets
running to false, the phase to Inhale (index 0), phaseRemaining to the
configured Inhale duration, cyclesCompleted and sessionElapsedSeconds to
0, clears the session start timestamp, and recenters the dot at (50, 50). -/
theorem c6_reset_restores (cfg : SettingsState) (s : EngineState) :
    (resetAll cfg s).running = false ∧
    (resetAll cfg s).phaseIndex = 0 ∧
    (resetAll cfg s).phaseRemaining = (phaseDurations cfg 0 : ℤ) ∧
    (resetAll cfg s).cycles = 0 ∧
    (resetAll cfg s).sessionSeconds = 0 ∧
    (resetAll cfg s).sessionStart = none ∧
    (resetAll cfg s).dotPos = ((50 : ℝ), (50 : ℝ)) :=
  ⟨rfl, rfl, rfl, rfl, rfl, rfl, rfl⟩

/-! ## Claim C7 -/

/-- Claim C7: after pause, any number of tick periods leaves the whole
engine state, the dot position included, completely unchanged. -/
theorem c7_ticks_after_pause_noop (cfg : SettingsState) (rs : ℕ → ℝ × ℝ) (n : ℕ)
    (s : EngineState) :
    tickN cfg rs n (pauseOp s) = some (pauseOp s) := by
  induction n generalizing rs with
  | zero => rfl
  | succ n ih =>
    have hnr : ¬ (pauseOp s).running = true := by
      simp [pauseOp]
    have hop : tickOp cfg (rs 0) (pauseOp s) = some (pauseOp s) := by
      rw [tickOp, tickRaw_not_running cfg (rs 0) hnr]
      exact stabilize_not_guard cfg (fun hg => hnr hg.1) (fun hcnd => hnr hcnd.1)
    rw [tickN_succ, hop, Option.some_bind]
    exact ih (rsShift rs)

/-! ## Claim C8 -/

/-- Claim C8: for every cyclesCompleted and cyclesGoal the exposed
progress percentage equals min(100, round(100 * cycles / max(1, goal)));
in particular 5 of 20 gives 25 and 25 of 20 is clamped to 100. -/
theorem c8_progress_formula :
    (∀ c g : ℕ, progressPct c g = progressSpec c g) ∧
      progressPct 5 20 = 25 ∧ progressPct 25 20 = 100 := by
  refine ⟨fun c g => ?_, ?_, ?_⟩
  · unfold progressPct progressSpec
    congr 2
    ring
  · norm_num [progressPct, jsRound]
  · norm_num [progressPct, jsRound]

/-! ## Claim C9 -/

/-- Claim C9: every sequence of dot-size slider writes starting from the
defaults leaves dotMin + 10 at most dotMax; each write clamps the written
field against the other one. -/
theorem c9_dot_size_invariant (edits : List DotEdit) :
    (edits.foldl applyDotEdit DEFAULTS).dotMin + 10 ≤
      (edits.foldl applyDotEdit DEFAULTS).dotMax := by
  have step : ∀ (s : SettingsState) (e : DotEdit),
      (applyDotEdit s e).dotMin + 10 ≤ (applyDotEdit s e).dotMax := by
    intro s e
    cases e with
    | setMin v =>
      have h := min_le_right v (s.dotMax - 10)
      simp only [applyDotEdit]
      omega
    | setMax v =>
      have h := le_max_right v (s.dotMin + 10)
      simp only [applyDotEdit]
      omega
  have main : ∀ (l : List DotEdit) (s : SettingsState),
      s.dotMin + 10 ≤ s.dotMax →
        (l.foldl applyDotEdit s).dotMin + 10 ≤ (l.foldl applyDotEdit s).dotMax := by
    intro l
    induction l with
    | nil => exact fun s hs => hs
    | cons e l ih =>
      intro s hs
      rw [List.foldl_cons]
      exact ih (applyDotEdit s e) (step s e)
  exact main edits DEFAULTS (by decide)

/-! ## Claim C10 -/

/-- After one interval callback from a running state the remaining count
is at least 1: the decrement branch requires it to have been above 1, and
the advance branch installs duration-or-1. -/
lemma tickRaw_rem_ge_one (cfg : SettingsState) (u : ℝ × ℝ) {s : EngineState}
    (h : s.running = true) : 1 ≤ (tickRaw cfg u s).phaseRemaining := by
  by_cases h2 : 1 < s.phaseRemaining
  · rw [tickRaw_dec cfg u h h2]
    dsimp
    omega
  · by_cases h3 : s.phaseIndex = 2
    · rw [tickRaw_adv_exhale cfg u h h2 h3]
      dsimp
      split
      · omega
      · rename_i hdz
        omega
    · rw [tickRaw_adv cfg u h h2 h3]
      dsimp
      split
      · omega
      · rename_i hdz
        omega

/-- Claim C10: after every completed tick while running, phaseRemaining is
at least 1; the value 0 is never installed by the countdown. -/
theorem c10_post_tick_remaining_positive (cfg : SettingsState) (u : ℝ × ℝ)
    (s s' : EngineState) (hrun : s.running = true) (htick : tickOp cfg u s = some s') :
    1 ≤ s'.phaseRemaining := by
  have hcond : ¬ ((tickRaw cfg u s).running = true ∧ allZero cfg) := by
    intro hcnd
    rw [tickOp, stabilize, if_pos hcnd] at htick
    exact Option.noConfusion htick
  rw [tickOp, stabilize_eq_some cfg hcond] at htick
  have hs' : s' = skipN cfg 4 (tickRaw cfg u s) := (Option.some.inj htick).symm
  subst hs'
  exact skipN_rem_ge_one cfg 4 (tickRaw_rem_ge_one cfg u hrun)

/-- Witness for claim C10: one tick from the freshly started default
configuration. -/
theorem c10_witness :
    1 ≤ ((tickOp DEFAULTS ((0 : ℝ), (0 : ℝ)) (startRaw 0 (initState DEFAULTS))).getD
          (startRaw 0 (initState DEFAULTS))).phaseRemaining :=
  c10_post_tick_remaining_positive DEFAULTS ((0 : ℝ), (0 : ℝ))
    (startRaw 0 (initState DEFAULTS))
    ((tickOp DEFAULTS ((0 : ℝ), (0 : ℝ)) (startRaw 0 (initState DEFAULTS))).getD
      (startRaw 0 (initState DEFAULTS)))
    rfl rfl
